import Mathlib

/-!
Shallow embedding of the dataset-helpers split dispatcher (`src/split.ts`)
and the export orchestrator loop (`src/export.ts`), with proofs of the
specification claims about them.

Conventions:
* TypeScript `number` arithmetic on ratios is modelled exactly with `ℚ`;
  sample counters are `ℕ`.
* A `throw` is modelled with `Except`: `dispatchGroup` returns
  `Except (GroupType × ℚ) GroupType`, the error carrying the offending
  split and its target value (the data interpolated into the thrown
  `Error` message).
* The TypeScript union `GroupType | ""` (a sample's possibly-empty group
  tag) is modelled as `Option GroupType`, `none` standing for `""`.
-/

namespace DatasetHelpers

/-- Type `GroupType` from `src/group.ts`: `"train" | "val" | "test"`. -/
inductive GroupType where
  | train
  | test
  | val
deriving DecidableEq

/-- Constant `group_types` from `src/group.ts`: `["train", "test", "val"]`. -/
def group_types : List GroupType := [.train, .test, .val]

/-- A `Record<GroupType, number>` of sample counters. -/
structure Counts where
  train : Nat
  test : Nat
  val : Nat
deriving DecidableEq

/-- Read a counter field. -/
def Counts.get (c : Counts) : GroupType → Nat
  | .train => c.train
  | .test => c.test
  | .val => c.val

/-- Increment a counter: `current[g]++` / `simulated[g] += 1`. -/
def Counts.inc (c : Counts) : GroupType → Counts
  | .train => { c with train := c.train + 1 }
  | .test => { c with test := c.test + 1 }
  | .val => { c with val := c.val + 1 }

/-- A `Record<GroupType, number>` of target ratio weights. -/
structure Ratio where
  train : ℚ
  test : ℚ
  val : ℚ
deriving DecidableEq

/-- Read a target weight. -/
def Ratio.get (t : Ratio) : GroupType → ℚ
  | .train => t.train
  | .test => t.test
  | .val => t.val

/-- The active group list computed by `dispatchGroup`:
`target["val"] === 0 ? ["train", "test"] : ["train", "test", "val"]`. -/
def activeGroups (t : Ratio) : List GroupType :=
  if t.val = 0 then [.train, .test] else [.train, .test, .val]

/-- The inner error accumulation of `dispatchGroup` for one candidate `g`:
`simulated = {...current}; simulated[g] += 1;` then
`error += (simulated[h]/new_total - target[h]/total_target)^2` over the
active groups `h`. -/
def simError (current : Counts) (t : Ratio) (gts : List GroupType)
    (total_target newTotal : ℚ) (g : GroupType) : ℚ :=
  (gts.map (fun h =>
    let simulated : ℚ := (current.get h : ℚ) + (if h = g then 1 else 0)
    let diff : ℚ := simulated / newTotal - t.get h / total_target
    diff * diff)).sum

/-- The candidate-selection loop of `dispatchGroup`: walks the active
groups carrying `best_group` and `best_error` (`none` models the initial
`Infinity`), breaking out at the first group whose current count is `0`,
and otherwise updating the best candidate on strict `<`. -/
def dispatchLoop {α : Type} [LinearOrder α] (current : Counts)
    (err : GroupType → α) : List GroupType → GroupType → Option α → GroupType
  | [], best, _ => best
  | g :: gs, best, bestErr =>
    if current.get g = 0 then g
    else
      let e := err g
      match bestErr with
      | none => dispatchLoop current err gs g (some e)
      | some be =>
        if e < be then dispatchLoop current err gs g (some e)
        else dispatchLoop current err gs best (some be)

/-- Function `dispatchGroup` from `src/split.ts`. -/
def dispatchGroup (current : Counts) (target : Ratio) :
    Except (GroupType × ℚ) GroupType :=
  let gts := activeGroups target
  match gts.find? (fun g => decide (target.get g ≤ 0)) with
  | some g => .error (g, target.get g)
  | none =>
    let total_target : ℚ := (gts.map target.get).sum
    let total_current : Nat := (gts.map current.get).sum
    .ok (dispatchLoop current
      (simError current target gts total_target ((total_current : ℚ) + 1))
      gts (gts.headD .train) none)

/-- The loop body of `genDispatchGroupSequence`, recursing on the number
of remaining pulls with the mutable `current` passed explicitly. -/
def genSeqAux (target : Ratio) : Nat → Counts →
    Except (GroupType × ℚ) (List GroupType)
  | 0, _ => .ok []
  | n + 1, current =>
    match dispatchGroup current target with
    | .error e => .error e
    | .ok g => (genSeqAux target n (current.inc g)).map (fun l => g :: l)

/-- Generator `genDispatchGroupSequence` from `src/split.ts`: starts from all-zero
counters and yields `total` dispatched groups. -/
def genDispatchGroupSequence (target : Ratio) (total : Nat) :
    Except (GroupType × ℚ) (List GroupType) :=
  genSeqAux target total ⟨0, 0, 0⟩

/-! ### Integer-arithmetic twin of the dispatcher

All candidate errors compared during one `dispatchGroup` call share the
positive denominator `(new_total * total_target)^2`, so the strict-`<`
comparisons of the ℚ errors coincide with comparisons of their integer
numerators.  The twin below computes those numerators directly; its
agreement with `dispatchGroup` is proved (`dispatchGroup_eq_intN`) and it
makes concrete runs kernel-evaluable. -/

/-- Target ratio with natural-number weights (the shape used by the
repository's callers, e.g. `{train: 7, test: 2, val: 1}`). -/
structure RatioN where
  train : Nat
  test : Nat
  val : Nat
deriving DecidableEq

/-- Read a natural target weight. -/
def RatioN.get (t : RatioN) : GroupType → Nat
  | .train => t.train
  | .test => t.test
  | .val => t.val

/-- The ℚ-valued ratio denoted by a natural-number ratio. -/
def RatioN.toRatio (t : RatioN) : Ratio :=
  ⟨(t.train : ℚ), (t.test : ℚ), (t.val : ℚ)⟩

/-- Integer numerator of `simError` over the common denominator
`(newTotal * total_target)^2`. -/
def simErrorN (current : Counts) (t : RatioN) (gts : List GroupType)
    (total_target newTotal : Nat) (g : GroupType) : ℤ :=
  (gts.map (fun h =>
    let simulated : ℤ := (current.get h : ℤ) + (if h = g then 1 else 0)
    let d : ℤ := simulated * (total_target : ℤ) - (t.get h : ℤ) * (newTotal : ℤ)
    d * d)).sum

/-- Integer-arithmetic twin of `dispatchGroup` for natural targets. -/
def dispatchGroupN (current : Counts) (target : RatioN) :
    Except (GroupType × ℚ) GroupType :=
  let gts := activeGroups target.toRatio
  match gts.find? (fun g => decide (target.get g = 0)) with
  | some g => .error (g, (target.get g : ℚ))
  | none =>
    let total_target : Nat := (gts.map target.get).sum
    let total_current : Nat := (gts.map current.get).sum
    .ok (dispatchLoop current
      (simErrorN current target gts total_target (total_current + 1))
      gts (gts.headD .train) none)

/-- Twin of `genSeqAux` driven by `dispatchGroupN`. -/
def genSeqAuxN (target : RatioN) : Nat → Counts →
    Except (GroupType × ℚ) (List GroupType)
  | 0, _ => .ok []
  | n + 1, current =>
    match dispatchGroupN current target with
    | .error e => .error e
    | .ok g => (genSeqAuxN target n (current.inc g)).map (fun l => g :: l)

/-- Tail-recursive counter accumulation over `dispatchGroupN`: the final
counters of a `genSeqAuxN` run, without materialising the list. -/
def runCountsN (target : RatioN) : Nat → Counts →
    Except (GroupType × ℚ) Counts
  | 0, current => .ok current
  | n + 1, current =>
    match dispatchGroupN current target with
    | .error e => .error e
    | .ok g => runCountsN target n (current.inc g)

deriving instance DecidableEq for Except

/-- Folding `Counts.inc` over a dispatched list. -/
def tally (current : Counts) (l : List GroupType) : Counts :=
  l.foldl Counts.inc current

/-- The steady-state error that `dispatchGroup` minimises: the sum of the
squared deviations of the simulated proportions from the target
proportions after adding one sample to `g`. -/
def steadyError (current : Counts) (target : Ratio) (g : GroupType) : ℚ :=
  simError current target (activeGroups target)
    ((activeGroups target).map target.get).sum
    ((((activeGroups target).map current.get).sum : ℚ) + 1) g

/-- The spec's description of the sequence generator, written from its
words for the refinement comparison: start from all-zero counts and
repeatedly call the dispatcher then increment the chosen split's counter,
`total` times, collecting the yielded splits in order. -/
def driveDispatcher (target : Ratio) : Nat → Counts × List GroupType →
    Except (GroupType × ℚ) (Counts × List GroupType)
  | 0, st => .ok st
  | n + 1, st =>
    match dispatchGroup st.1 target with
    | .error e => .error e
    | .ok g => driveDispatcher target n (st.1.inc g, st.2 ++ [g])

/-! ### The export orchestrator (`exportDatasetHelper` in `src/export.ts`)

The orchestrator iterates the sample sequence; per sample it either asks
the caller-supplied `dispatchGroupToCall` (initialising and incrementing
the per-class `currentRatioByClass` entry) or falls back to the sample's
own `groupType` tag, records the group in the `groupTypes` list if new,
and awaits `saveSample`.  After the loop it calls `createDirsAndMetadata`
with the collected groups.  `saveSample` is modelled as a caller-supplied
`Except`-valued function; the run result records the saves performed, the
argument passed to the finalize hook (`none` when it was not invoked) and
the propagated outcome. -/

/-- The generic sample record consumed by `exportDatasetHelper`; the
annotation payload is irrelevant to the orchestrator and abstracted as a
type parameter. -/
structure Sample (A : Type) where
  imageId : Int
  filename : String
  categoryName : String
  groupType : Option GroupType
  annotation : A
deriving DecidableEq

/-- Reading `currentRatioByClass[class_name]` (an object keyed by class
name, modelled as an association list in insertion order). -/
def lookupCounts : List (String × Counts) → String → Option Counts
  | [], _ => none
  | (k, v) :: rest, c => if k = c then some v else lookupCounts rest c

/-- Writing `currentRatioByClass[class_name]`. -/
def setCounts : List (String × Counts) → String → Counts →
    List (String × Counts)
  | [], c, v => [(c, v)]
  | (k, w) :: rest, c, v =>
    if k = c then (k, v) :: rest else (k, w) :: setCounts rest c v

/-- The mutable state of one `exportDatasetHelper` run: the per-class
counts table, the `groupTypes` list of groups seen so far, and the
`saveSample` invocations performed so far. -/
structure HelperState (A : Type) where
  ratios : List (String × Counts)
  groups : List (Option GroupType)
  calls : List (Sample A × Option GroupType)
deriving DecidableEq

/-- The `for (const sample of sampleIterator)` loop of
`exportDatasetHelper`.  With an override present the per-class entry is
defaulted (`??=`), the override consulted, and the chosen split's counter
incremented; otherwise the sample's own tag is passed through.  The
chosen group is appended to `groupTypes` if new, then `saveSample` runs;
its failure aborts the loop with that error. -/
def helperRun {A E : Type} (override : Option (Sample A → Counts → GroupType))
    (save : Sample A → Option GroupType → Except E Unit) :
    List (Sample A) → HelperState A → HelperState A × Except E Unit
  | [], st => (st, .ok ())
  | s :: rest, st =>
    let dispatched : List (String × Counts) × Option GroupType :=
      match override with
      | some f =>
        let cur := (lookupCounts st.ratios s.categoryName).getD ⟨0, 0, 0⟩
        let g := f s cur
        (setCounts st.ratios s.categoryName (cur.inc g), some g)
      | none => (st.ratios, s.groupType)
    let st' : HelperState A :=
      ⟨dispatched.1,
        if dispatched.2 ∈ st.groups then st.groups
        else st.groups ++ [dispatched.2],
        st.calls ++ [(s, dispatched.2)]⟩
    match save s dispatched.2 with
    | .error e => (st', .error e)
    | .ok _ => helperRun override save rest st'

/-- The outcome of an `exportDatasetHelper` run. -/
structure HelperResult (A E : Type) where
  state : HelperState A
  finalizeArg : Option (List (Option GroupType))
  result : Except E Unit
deriving DecidableEq

/-- Function `exportDatasetHelper` from `src/export.ts`: run the loop from empty
state; on success invoke `createDirsAndMetadata` (when supplied) with the
collected `groupTypes`; on failure propagate without finalizing. -/
def exportDatasetHelper {A E : Type}
    (override : Option (Sample A → Counts → GroupType))
    (save : Sample A → Option GroupType → Except E Unit)
    (hasFinalize : Bool) (samples : List (Sample A)) : HelperResult A E :=
  let r := helperRun override save samples ⟨[], [], []⟩
  match r.2 with
  | .error e => ⟨r.1, none, .error e⟩
  | .ok _ => ⟨r.1, if hasFinalize then some r.1.groups else none, .ok ()⟩

/-- First-seen deduplicating accumulation, the shape in which the
`groupTypes` list grows. -/
def dedupAppend {T : Type} [DecidableEq T] : List T → List T → List T
  | acc, [] => acc
  | acc, g :: gs => dedupAppend (if g ∈ acc then acc else acc ++ [g]) gs

/-! ### Basic loop lemmas -/

/-- The selection loop only ever returns the running best candidate or a
group from the remaining list. -/
theorem dispatchLoop_mem {α : Type} [LinearOrder α] (current : Counts)
    (err : GroupType → α) :
    ∀ (l : List GroupType) (best : GroupType) (bestErr : Option α),
      dispatchLoop current err l best bestErr ∈ best :: l := by
  intro l
  induction l with
  | nil => intro best bestErr; simp [dispatchLoop]
  | cons g gs ih =>
    intro best bestErr
    by_cases h0 : current.get g = 0
    · simp [dispatchLoop, h0]
    · cases bestErr with
      | none =>
        have := ih g (some (err g))
        simp only [dispatchLoop, h0, if_false]
        rcases List.mem_cons.mp this with h | h
        · simp [h]
        · simp [List.mem_cons, h]
      | some be =>
        simp only [dispatchLoop, h0, if_false]
        by_cases hlt : err g < be
        · rw [if_pos hlt]
          have := ih g (some (err g))
          rcases List.mem_cons.mp this with h | h
          · simp [h]
          · simp [List.mem_cons, h]
        · rw [if_neg hlt]
          have := ih best (some be)
          rcases List.mem_cons.mp this with h | h
          · simp [h]
          · simp [List.mem_cons, h]

/-- Cold-start behaviour of the selection loop: it returns the first
group in the list whose current count is `0`, whatever the error
function and the running best candidate. -/
theorem dispatchLoop_find_zero {α : Type} [LinearOrder α] (current : Counts)
    (err : GroupType → α) :
    ∀ (l : List GroupType) (g : GroupType) (best : GroupType)
      (bestErr : Option α),
      l.find? (fun h => decide (current.get h = 0)) = some g →
      dispatchLoop current err l best bestErr = g := by
  intro l
  induction l with
  | nil => intro g best bestErr h; simp [List.find?] at h
  | cons x xs ih =>
    intro g best bestErr h
    by_cases h0 : current.get x = 0
    · have : x = g := by
        rw [List.find?_cons_of_pos] at h
        · exact Option.some.inj h
        · simpa using h0
      subst this
      simp [dispatchLoop, h0]
    · rw [List.find?_cons_of_neg] at h
      · cases bestErr with
        | none => simp only [dispatchLoop, h0, if_false]; exact ih g x _ h
        | some be =>
          simp only [dispatchLoop, h0, if_false]
          by_cases hlt : err x < be
          · rw [if_pos hlt]; exact ih g x _ h
          · rw [if_neg hlt]; exact ih g best _ h
      · simpa using h0

/-! ### Agreement of the ℚ dispatcher with its integer twin -/

/-- Reading a field commutes with `RatioN.toRatio`. -/
theorem RatioN.get_toRatio (t : RatioN) (g : GroupType) :
    t.toRatio.get g = (t.get g : ℚ) := by
  cases g <;> rfl

/-- A sum of integer numerators over a common denominator. -/
theorem sum_map_div {γ : Type} (l : List γ) (f : γ → ℤ) (D : ℚ) :
    (l.map (fun x => (f x : ℚ) / D)).sum = ((l.map f).sum : ℚ) / D := by
  induction l with
  | nil => simp
  | cons x xs ih =>
    simp only [List.map_cons, List.sum_cons, ih]
    push_cast
    ring

/-- A natural-number list sum is nonzero as soon as one member is. -/
theorem sum_ne_zero_of_mem {l : List Nat} {a : Nat} (ha : a ∈ l)
    (h : a ≠ 0) : l.sum ≠ 0 := by
  induction l with
  | nil => simp at ha
  | cons x xs ih =>
    rcases List.mem_cons.mp ha with rfl | ha'
    · simp only [List.sum_cons]
      omega
    · have := ih ha'
      simp only [List.sum_cons]
      omega

/-- The ℚ simulated-proportion error is the integer numerator divided by
the common positive denominator `((newTotal) * (total_target))^2`. -/
theorem simError_eq_intN (current : Counts) (t : RatioN)
    (gts : List GroupType) (Sn Tn : Nat) (hS : Sn ≠ 0) (hT : Tn ≠ 0)
    (g : GroupType) :
    simError current t.toRatio gts (Sn : ℚ) (Tn : ℚ) g =
      (simErrorN current t gts Sn Tn g : ℚ) / ((Tn : ℚ) * (Sn : ℚ)) ^ 2 := by
  have hS' : (Sn : ℚ) ≠ 0 := Nat.cast_ne_zero.mpr hS
  have hT' : (Tn : ℚ) ≠ 0 := Nat.cast_ne_zero.mpr hT
  unfold simError simErrorN
  rw [← sum_map_div]
  congr 1
  apply List.map_congr_left
  intro h _
  rw [RatioN.get_toRatio]
  by_cases hg : h = g
  · simp only [hg, if_pos rfl]
    push_cast
    field_simp
    ring
  · simp only [if_neg hg]
    push_cast
    field_simp
    ring

/-- The selection loop is invariant under a strictly monotone transform
of the error function. -/
theorem dispatchLoop_comp {α β : Type} [LinearOrder α] [LinearOrder β]
    (φ : α → β) (hφ : ∀ x y : α, φ x < φ y ↔ x < y) (current : Counts)
    (err : GroupType → α) :
    ∀ (l : List GroupType) (best : GroupType) (bestErr : Option α),
      dispatchLoop current (fun g => φ (err g)) l best (bestErr.map φ) =
        dispatchLoop current err l best bestErr := by
  intro l
  induction l with
  | nil => intro best bestErr; rfl
  | cons g gs ih =>
    intro best bestErr
    by_cases h0 : current.get g = 0
    · simp [dispatchLoop, h0]
    · cases bestErr with
      | none =>
        simp only [dispatchLoop, h0, if_false, Option.map_none']
        exact ih g (some (err g))
      | some be =>
        simp only [dispatchLoop, h0, if_false, Option.map_some']
        by_cases hlt : err g < be
        · rw [if_pos ((hφ _ _).mpr hlt), if_pos hlt]
          exact ih g (some (err g))
        · rw [if_neg (fun hc => hlt ((hφ _ _).mp hc)), if_neg hlt]
          exact ih best (some be)

/-- Group `train` is active for every target ratio. -/
theorem train_mem_activeGroups (t : Ratio) : GroupType.train ∈ activeGroups t := by
  unfold activeGroups
  split_ifs <;> simp

/-- The ℚ dispatcher agrees with the integer twin on natural targets. -/
theorem dispatchGroup_eq_intN (current : Counts) (t : RatioN) :
    dispatchGroup current t.toRatio = dispatchGroupN current t := by
  unfold dispatchGroup dispatchGroupN
  have hpred : (fun g => decide (t.toRatio.get g ≤ 0)) =
      (fun g => decide (t.get g = 0)) := by
    funext g
    simp [RatioN.get_toRatio, decide_eq_decide, Nat.cast_nonpos]
  rw [hpred]
  simp only []
  cases hf : (activeGroups t.toRatio).find? (fun g => decide (t.get g = 0)) with
  | some g =>
    simp [RatioN.get_toRatio]
  | none =>
    simp only []
    congr 1
    have hall : ∀ g ∈ activeGroups t.toRatio, t.get g ≠ 0 := by
      intro g hg
      have := List.find?_eq_none.mp hf g hg
      simpa using this
    set gts := activeGroups t.toRatio with hgts
    have hSsum : ((gts.map t.toRatio.get).sum : ℚ) = (((gts.map t.get).sum : ℕ) : ℚ) := by
      rw [Nat.cast_list_sum, List.map_map]
      congr 1
      apply List.map_congr_left
      intro g _
      exact RatioN.get_toRatio t g
    set Sn : Nat := (gts.map t.get).sum with hSn
    set Tn : Nat := (gts.map current.get).sum + 1 with hTn
    have hS : Sn ≠ 0 :=
      sum_ne_zero_of_mem (List.mem_map_of_mem t.get (train_mem_activeGroups _))
        (hall _ (train_mem_activeGroups _))
    have hT : Tn ≠ 0 := by omega
    have hD : (0 : ℚ) < ((Tn : ℚ) * (Sn : ℚ)) ^ 2 := by
      apply pow_pos
      apply mul_pos <;>
        exact_mod_cast Nat.pos_of_ne_zero (by omega)
    have herr : simError current t.toRatio gts
          ((gts.map t.toRatio.get).sum) (((gts.map current.get).sum : ℚ) + 1) =
        (fun g => ((fun z : ℤ => (z : ℚ) / ((Tn : ℚ) * (Sn : ℚ)) ^ 2)
          (simErrorN current t gts Sn Tn g))) := by
      funext g
      rw [hSsum]
      have hTcast : ((gts.map current.get).sum : ℚ) + 1 = (Tn : ℚ) := by
        rw [hTn]; push_cast; ring
      rw [hTcast]
      exact simError_eq_intN current t gts Sn Tn hS hT g
    rw [herr]
    have := dispatchLoop_comp
      (fun z : ℤ => (z : ℚ) / ((Tn : ℚ) * (Sn : ℚ)) ^ 2)
      (fun x y => by rw [div_lt_div_iff_of_pos_right hD, Int.cast_lt])
      current (simErrorN current t gts Sn Tn) gts (gts.headD .train) none
    simpa using this

/-! ### Generator-level lemmas -/

/-- The generator loop agrees with its integer twin. -/
theorem genSeqAux_eq_intN (t : RatioN) :
    ∀ (n : Nat) (current : Counts),
      genSeqAux t.toRatio n current = genSeqAuxN t n current := by
  intro n
  induction n with
  | zero => intro current; rfl
  | succ n ih =>
    intro current
    simp only [genSeqAux, genSeqAuxN, dispatchGroup_eq_intN]
    cases dispatchGroupN current t with
    | error e => rfl
    | ok g => simp [ih]


/-- Function `runCountsN` computes the tally of the list `genSeqAuxN` produces. -/
theorem runCountsN_eq_tally (t : RatioN) :
    ∀ (n : Nat) (current : Counts),
      runCountsN t n current = (genSeqAuxN t n current).map (tally current) := by
  intro n
  induction n with
  | zero => intro current; rfl
  | succ n ih =>
    intro current
    simp only [runCountsN, genSeqAuxN]
    cases dispatchGroupN current t with
    | error e => rfl
    | ok g =>
      simp only [ih]
      cases genSeqAuxN t n (current.inc g) with
      | error e => rfl
      | ok l => simp [Except.map, tally]

/-- A successful generator run has exactly `n` elements. -/
theorem genSeqAux_length (t : Ratio) :
    ∀ (n : Nat) (current : Counts) (l : List GroupType),
      genSeqAux t n current = .ok l → l.length = n := by
  intro n
  induction n with
  | zero =>
    intro current l h
    simp only [genSeqAux] at h
    cases h
    rfl
  | succ n ih =>
    intro current l h
    simp only [genSeqAux] at h
    cases hd : dispatchGroup current t with
    | error e => rw [hd] at h; cases h
    | ok g =>
      rw [hd] at h
      simp only [] at h
      cases hrec : genSeqAux t n (current.inc g) with
      | error e => rw [hrec] at h; cases h
      | ok l' =>
        rw [hrec] at h
        simp only [Except.map] at h
        cases h
        simp [ih _ l' hrec]

/-- Tallying counts occurrences: the `g` field of the tally is the start
value plus the number of occurrences of `g`. -/
theorem tally_get (g : GroupType) :
    ∀ (l : List GroupType) (current : Counts),
      (tally current l).get g = current.get g + l.count g := by
  intro l
  induction l with
  | nil => intro current; simp [tally]
  | cons x xs ih =>
    intro current
    simp only [tally, List.foldl_cons, List.count_cons]
    have : (tally (current.inc x) xs).get g =
        (current.inc x).get g + xs.count g := ih (current.inc x)
    simp only [tally] at this
    rw [this]
    by_cases hx : x = g
    · subst hx
      cases x <;> simp [Counts.inc, Counts.get] <;> omega
    · have : (x == g) = false := by simpa using hx
      rw [this]
      cases x <;> cases g <;> simp_all [Counts.inc, Counts.get]

/-- Splitting a counter run into two runs. -/
theorem runCountsN_add (t : RatioN) :
    ∀ (m n : Nat) (current : Counts),
      runCountsN t (m + n) current =
        (runCountsN t m current).bind (runCountsN t n) := by
  intro m
  induction m with
  | zero => intro n current; simp [runCountsN, Except.bind]
  | succ m ih =>
    intro n current
    have hmn : m + 1 + n = (m + n) + 1 := by omega
    rw [hmn]
    simp only [runCountsN]
    cases dispatchGroupN current t with
    | error e => rfl
    | ok g => simp [ih, Except.bind]

/-- Chain two verified counter-run segments. -/
theorem runCountsN_chain (t : RatioN) (k m n : Nat) (c c' : Counts)
    (r : Except (GroupType × ℚ) Counts) (hk : m + n = k)
    (h1 : runCountsN t m c = .ok c') (h2 : runCountsN t n c' = r) :
    runCountsN t k c = r := by
  subst hk
  rw [runCountsN_add, h1]
  simpa [Except.bind] using h2


/-! ### Dispatcher claims -/

/-- A validated target (all active weights positive) passes the input
check of `dispatchGroup`. -/
theorem find?_invalid_none (target : Ratio)
    (hv : ∀ g ∈ activeGroups target, 0 < target.get g) :
    (activeGroups target).find? (fun g => decide (target.get g ≤ 0)) = none := by
  rw [List.find?_eq_none]
  intro g hg
  simpa using not_le.mpr (hv g hg)

/-- For a validated target the dispatcher always succeeds, returning the
selection-loop result. -/
theorem dispatchGroup_ok (current : Counts) (target : Ratio)
    (hv : ∀ g ∈ activeGroups target, 0 < target.get g) :
    dispatchGroup current target = .ok
      (dispatchLoop current
        (simError current target (activeGroups target)
          ((activeGroups target).map target.get).sum
          ((((activeGroups target).map current.get).sum : ℚ) + 1))
        (activeGroups target) ((activeGroups target).headD .train) none) := by
  simp [dispatchGroup, find?_invalid_none target hv]


/-- Claim C2, cold-start rule: whenever some active split has count `0`,
`dispatchGroup` returns the first such split in iteration order; as a
consequence, starting from all-zero counts a validated target yields the
active splits in order (train, then test, then val if active) on the
first `N` pulls, `N` being the number of active splits. -/
theorem dispatchGroup_cold_start (target : Ratio)
    (hv : ∀ g ∈ activeGroups target, 0 < target.get g) :
    (∀ (current : Counts) (g : GroupType),
      (activeGroups target).find? (fun h => decide (current.get h = 0)) = some g →
      dispatchGroup current target = .ok g) ∧
    genDispatchGroupSequence target (activeGroups target).length =
      .ok (activeGroups target) := by
  have hcold : ∀ (current : Counts) (g : GroupType),
      (activeGroups target).find? (fun h => decide (current.get h = 0)) = some g →
      dispatchGroup current target = .ok g := by
    intro current g hg
    rw [dispatchGroup_ok current target hv]
    exact congrArg Except.ok (dispatchLoop_find_zero current _ _ g _ _ hg)
  refine ⟨hcold, ?_⟩
  unfold genDispatchGroupSequence
  by_cases hval : target.val = 0
  · have hgts : activeGroups target = [.train, .test] := by
      simp [activeGroups, hval]
    have hd0 : dispatchGroup ⟨0, 0, 0⟩ target = .ok .train := by
      apply hcold
      rw [hgts]
      decide
    have hd1 : dispatchGroup ⟨1, 0, 0⟩ target = .ok .test := by
      apply hcold
      rw [hgts]
      decide
    rw [hgts]
    simp only [List.length_cons, List.length_nil]
    simp [genSeqAux, hd0, hd1, Counts.inc, Except.map]
  · have hgts : activeGroups target = [.train, .test, .val] := by
      simp [activeGroups, hval]
    have hd0 : dispatchGroup ⟨0, 0, 0⟩ target = .ok .train := by
      apply hcold
      rw [hgts]
      decide
    have hd1 : dispatchGroup ⟨1, 0, 0⟩ target = .ok .test := by
      apply hcold
      rw [hgts]
      decide
    have hd2 : dispatchGroup ⟨1, 1, 0⟩ target = .ok .val := by
      apply hcold
      rw [hgts]
      decide
    rw [hgts]
    simp only [List.length_cons, List.length_nil]
    simp [genSeqAux, hd0, hd1, hd2, Counts.inc, Except.map]

/-- Claim C4, two-way degeneration: with `target.val = 0` and positive train
and test weights, `dispatchGroup` never returns `val`, whatever the
current counts. -/
theorem dispatchGroup_never_val (target : Ratio) (h0 : target.val = 0)
    (htr : 0 < target.train) (hte : 0 < target.test) (current : Counts) :
    dispatchGroup current target ≠ .ok GroupType.val := by
  have hgts : activeGroups target = [.train, .test] := by
    simp [activeGroups, h0]
  have hv : ∀ g ∈ activeGroups target, 0 < target.get g := by
    intro g hg
    rw [hgts] at hg
    fin_cases hg
    · exact htr
    · exact hte
  rw [dispatchGroup_ok current target hv]
  intro hcontra
  have hmem := dispatchLoop_mem current
    (simError current target (activeGroups target)
      ((activeGroups target).map target.get).sum
      ((((activeGroups target).map current.get).sum : ℚ) + 1))
    (activeGroups target) ((activeGroups target).headD .train) none
  rw [Except.ok.injEq] at hcontra
  rw [hcontra, hgts] at hmem
  simp at hmem

/-- Claim C5, configuration-error behaviour: `dispatchGroup` fails if and
only if some active split's target weight is `≤ 0`; the error carries the
offending split and its value, and — the check preceding all allocation
logic — is independent of the current counts. -/
theorem dispatchGroup_config_error (current : Counts) (target : Ratio) :
    match dispatchGroup current target with
    | .error (g, v) => g ∈ activeGroups target ∧ v = target.get g ∧ v ≤ 0 ∧
        ∀ c' : Counts, dispatchGroup c' target = .error (g, v)
    | .ok _ => ∀ g ∈ activeGroups target, 0 < target.get g := by
  cases hf : (activeGroups target).find? (fun g => decide (target.get g ≤ 0)) with
  | some g =>
    have herr : ∀ c' : Counts,
        dispatchGroup c' target = .error (g, target.get g) := by
      intro c'
      simp [dispatchGroup, hf]
    rw [herr current]
    exact ⟨List.mem_of_find?_eq_some hf,
      rfl,
      by simpa using List.find?_some hf,
      herr⟩
  | none =>
    have hok : dispatchGroup current target = .ok
        (dispatchLoop current
          (simError current target (activeGroups target)
            ((activeGroups target).map target.get).sum
            ((((activeGroups target).map current.get).sum : ℚ) + 1))
          (activeGroups target) ((activeGroups target).headD .train) none) := by
      simp [dispatchGroup, hf]
    rw [hok]
    intro g hg
    have := List.find?_eq_none.mp hf g hg
    simpa using this

/-- Claim C1, steady-state rule: when every active split already has a
positive count and the target validates, `dispatchGroup` returns the
active split minimising the sum of squared deviations between simulated
and target proportions, ties resolving to the earliest split in
iteration order. -/
theorem dispatchGroup_minimizes_sq_error (current : Counts) (target : Ratio)
    (hv : ∀ g ∈ activeGroups target, 0 < target.get g)
    (hc : ∀ g ∈ activeGroups target, 0 < current.get g) :
    ∃ b, dispatchGroup current target = .ok b ∧ b ∈ activeGroups target ∧
      (∀ g ∈ activeGroups target,
        steadyError current target b ≤ steadyError current target g) ∧
      (∀ g ∈ activeGroups target,
        steadyError current target g = steadyError current target b →
        (activeGroups target).indexOf b ≤ (activeGroups target).indexOf g) := by
  have hok := dispatchGroup_ok current target hv
  by_cases hval : target.val = 0
  · have hgts : activeGroups target = [.train, .test] := by
      simp [activeGroups, hval]
    have h1 : ¬ current.get .train = 0 :=
      Nat.pos_iff_ne_zero.mp (hc _ (by rw [hgts]; simp))
    have h2 : ¬ current.get .test = 0 :=
      Nat.pos_iff_ne_zero.mp (hc _ (by rw [hgts]; simp))
    rw [hgts] at hok
    simp only [dispatchLoop, List.headD, h1, if_false, h2] at hok
    simp only [steadyError, hgts]
    set E := simError current target [GroupType.train, GroupType.test]
      (List.map target.get [GroupType.train, GroupType.test]).sum
      ((List.map current.get [GroupType.train, GroupType.test]).sum + 1 : ℚ)
      with hE
    by_cases h12 : E .test < E .train
    · rw [if_pos h12] at hok
      refine ⟨.test, hok, by simp, ?_, ?_⟩
      · intro g hg
        fin_cases hg
        · exact le_of_lt h12
        · exact le_refl _
      · intro g hg heq
        fin_cases hg
        · exact absurd (heq ▸ h12) (lt_irrefl _)
        · exact le_refl _
    · rw [if_neg h12] at hok
      refine ⟨.train, hok, by simp, ?_, ?_⟩
      · intro g hg
        fin_cases hg
        · exact le_refl _
        · exact le_of_not_lt h12
      · intro g hg _
        fin_cases hg <;> decide
  · have hgts : activeGroups target = [.train, .test, .val] := by
      simp [activeGroups, hval]
    have h1 : ¬ current.get .train = 0 :=
      Nat.pos_iff_ne_zero.mp (hc _ (by rw [hgts]; simp))
    have h2 : ¬ current.get .test = 0 :=
      Nat.pos_iff_ne_zero.mp (hc _ (by rw [hgts]; simp))
    have h3 : ¬ current.get .val = 0 :=
      Nat.pos_iff_ne_zero.mp (hc _ (by rw [hgts]; simp))
    rw [hgts] at hok
    simp only [dispatchLoop, List.headD, h1, if_false, h2, h3] at hok
    simp only [steadyError, hgts]
    set E := simError current target [GroupType.train, GroupType.test, GroupType.val]
      (List.map target.get [GroupType.train, GroupType.test, GroupType.val]).sum
      ((List.map current.get [GroupType.train, GroupType.test, GroupType.val]).sum + 1 : ℚ)
      with hE
    by_cases h12 : E .test < E .train
    · rw [if_pos h12] at hok
      by_cases h23 : E .val < E .test
      · rw [if_pos h23] at hok
        refine ⟨.val, hok, by simp, ?_, ?_⟩
        · intro g hg
          fin_cases hg
          · exact le_of_lt (lt_trans h23 h12)
          · exact le_of_lt h23
          · exact le_refl _
        · intro g hg heq
          fin_cases hg
          · exfalso; linarith
          · exfalso; linarith
          · exact le_refl _
      · rw [if_neg h23] at hok
        refine ⟨.test, hok, by simp, ?_, ?_⟩
        · intro g hg
          fin_cases hg
          · exact le_of_lt h12
          · exact le_refl _
          · exact le_of_not_lt h23
        · intro g hg heq
          fin_cases hg
          · exfalso; linarith
          · exact le_refl _
          · decide
    · rw [if_neg h12] at hok
      by_cases h13 : E .val < E .train
      · rw [if_pos h13] at hok
        refine ⟨.val, hok, by simp, ?_, ?_⟩
        · intro g hg
          fin_cases hg
          · exact le_of_lt h13
          · exact le_of_lt (lt_of_lt_of_le h13 (le_of_not_lt h12))
          · exact le_refl _
        · intro g hg heq
          fin_cases hg
          · exfalso; linarith
          · exfalso
            have := le_of_not_lt h12
            linarith
          · exact le_refl _
      · rw [if_neg h13] at hok
        refine ⟨.train, hok, by simp, ?_, ?_⟩
        · intro g hg
          fin_cases hg
          · exact le_refl _
          · exact le_of_not_lt h12
          · exact le_of_not_lt h13
        · intro g hg _
          fin_cases hg <;> decide


/-- The generator loop and the spec-side driver produce the same
sequences from any intermediate state. -/
theorem driveDispatcher_eq_genSeqAux (target : Ratio) :
    ∀ (n : Nat) (current : Counts) (acc : List GroupType),
      (driveDispatcher target n (current, acc)).map Prod.snd =
        (genSeqAux target n current).map (fun l => acc ++ l) := by
  intro n
  induction n with
  | zero => intro current acc; simp [driveDispatcher, genSeqAux, Except.map]
  | succ n ih =>
    intro current acc
    simp only [driveDispatcher, genSeqAux]
    cases hd : dispatchGroup current target with
    | error e => simp [Except.map]
    | ok g =>
      rw [ih]
      cases h' : genSeqAux target n (current.inc g) with
      | error e => simp [h', Except.map]
      | ok l => simp [h', Except.map, List.append_assoc, List.singleton_append]

/-- A validated target never aborts the generator loop. -/
theorem genSeqAux_ok_of_valid (target : Ratio)
    (hv : ∀ g ∈ activeGroups target, 0 < target.get g) :
    ∀ (n : Nat) (current : Counts),
      ∃ l, genSeqAux target n current = .ok l := by
  intro n
  induction n with
  | zero => intro current; exact ⟨[], rfl⟩
  | succ n ih =>
    intro current
    have hd := dispatchGroup_ok current target hv
    cases hdd : dispatchGroup current target with
    | error e => rw [hd] at hdd; simp at hdd
    | ok g =>
      obtain ⟨l, hl⟩ := ih (current.inc g)
      exact ⟨g :: l, by simp [genSeqAux, hdd, hl, Except.map]⟩

/-- Claim C6, refinement: `genDispatchGroupSequence` yields exactly `total` splits for a
validated target, and the sequence coincides with driving the dispatcher
from all-zero counts, incrementing the chosen split after each call. -/
theorem genDispatchGroupSequence_refines (target : Ratio) (total : Nat)
    (hv : ∀ g ∈ activeGroups target, 0 < target.get g) :
    ∃ l, genDispatchGroupSequence target total = .ok l ∧ l.length = total ∧
      (driveDispatcher target total (⟨0, 0, 0⟩, [])).map Prod.snd = .ok l := by
  obtain ⟨l, hl⟩ := genSeqAux_ok_of_valid target hv total ⟨0, 0, 0⟩
  refine ⟨l, hl, genSeqAux_length target total _ l hl, ?_⟩
  rw [driveDispatcher_eq_genSeqAux, hl]
  simp [Except.map]


/-! ### Orchestrator lemmas -/

/-- Membership in a first-seen deduplicating accumulation. -/
theorem mem_dedupAppend {T : Type} [DecidableEq T] :
    ∀ (l acc : List T) (a : T), a ∈ dedupAppend acc l ↔ a ∈ acc ∨ a ∈ l := by
  intro l
  induction l with
  | nil => intro acc a; simp [dedupAppend]
  | cons g gs ih =>
    intro acc a
    by_cases hg : g ∈ acc
    · rw [dedupAppend, if_pos hg, ih, List.mem_cons]
      constructor
      · rintro (h | h)
        · exact Or.inl h
        · exact Or.inr (Or.inr h)
      · rintro (h | rfl | h)
        · exact Or.inl h
        · exact Or.inl hg
        · exact Or.inr h
    · rw [dedupAppend, if_neg hg, ih, List.mem_append]
      simp [List.mem_append, or_assoc]

/-- First-seen deduplicating accumulation preserves distinctness. -/
theorem nodup_dedupAppend {T : Type} [DecidableEq T] :
    ∀ (l acc : List T), acc.Nodup → (dedupAppend acc l).Nodup := by
  intro l
  induction l with
  | nil => intro acc h; exact h
  | cons g gs ih =>
    intro acc h
    by_cases hg : g ∈ acc
    · rw [dedupAppend, if_pos hg]
      exact ih acc h
    · rw [dedupAppend, if_neg hg]
      apply ih
      simp [List.nodup_append, h, hg]

/-- A run over concatenated sample lists is the first run continued by
the second when the first succeeds, and the first run's outcome when it
fails. -/
theorem helperRun_append {A E : Type}
    (override : Option (Sample A → Counts → GroupType))
    (save : Sample A → Option GroupType → Except E Unit) :
    ∀ (xs ys : List (Sample A)) (st : HelperState A),
      helperRun override save (xs ++ ys) st =
        match (helperRun override save xs st).2 with
        | .error _ => helperRun override save xs st
        | .ok _ => helperRun override save ys (helperRun override save xs st).1 := by
  intro xs
  induction xs with
  | nil => intro ys st; rfl
  | cons s rest ih =>
    intro ys st
    simp only [List.cons_append, helperRun]
    cases save s _ with
    | error e => rfl
    | ok u => exact ih ys _

/-- Unfolding `exportDatasetHelper` on a successful loop run. -/
theorem exportDatasetHelper_eq_ok {A E : Type}
    (override : Option (Sample A → Counts → GroupType))
    (save : Sample A → Option GroupType → Except E Unit)
    (hasFinalize : Bool) (samples : List (Sample A)) (st' : HelperState A)
    (h : helperRun override save samples ⟨[], [], []⟩ = (st', .ok ())) :
    exportDatasetHelper override save hasFinalize samples =
      ⟨st', if hasFinalize then some st'.groups else none, .ok ()⟩ := by
  simp only [exportDatasetHelper, h]

/-- Unfolding `exportDatasetHelper` on a failed loop run. -/
theorem exportDatasetHelper_eq_error {A E : Type}
    (override : Option (Sample A → Counts → GroupType))
    (save : Sample A → Option GroupType → Except E Unit)
    (hasFinalize : Bool) (samples : List (Sample A)) (st' : HelperState A)
    (e : E) (h : helperRun override save samples ⟨[], [], []⟩ = (st', .error e)) :
    exportDatasetHelper override save hasFinalize samples =
      ⟨st', none, .error e⟩ := by
  simp only [exportDatasetHelper, h]

/-- Claim C8, fatal propagation: if `saveSample` succeeds on the first `k`
samples and fails on the `(k+1)`-st with error `e`, the whole run equals
the run truncated after that failing sample — same calls (none after the
failing one), no finalize invocation, and the same error as the result. -/
theorem exportDatasetHelper_fatal {A E : Type}
    (override : Option (Sample A → Counts → GroupType))
    (save : Sample A → Option GroupType → Except E Unit)
    (hasFinalize : Bool) (samples : List (Sample A)) (k : Nat) (e : E)
    (_hok : (helperRun override save (samples.take k) ⟨[], [], []⟩).2 = .ok ())
    (herr : (helperRun override save (samples.take (k + 1)) ⟨[], [], []⟩).2 =
      .error e) :
    exportDatasetHelper override save hasFinalize samples =
      ⟨(helperRun override save (samples.take (k + 1)) ⟨[], [], []⟩).1,
        none, .error e⟩ := by
  have hsplit : samples.take (k + 1) ++ samples.drop (k + 1) = samples :=
    List.take_append_drop _ _
  apply exportDatasetHelper_eq_error
  conv_lhs => rw [← hsplit]
  rw [helperRun_append, herr]
  exact Prod.ext rfl herr

/-- Pass-through runs with an all-successful sink: the loop appends one
call per sample with the sample's own tag, collects the first-seen tags,
leaves the per-class counts untouched and succeeds. -/
theorem helperRun_passthrough {A E : Type}
    (save : Sample A → Option GroupType → Except E Unit) :
    ∀ (samples : List (Sample A)) (st : HelperState A),
      (∀ s ∈ samples, save s s.groupType = .ok ()) →
      helperRun none save samples st =
        (⟨st.ratios,
          dedupAppend st.groups (samples.map (fun s => s.groupType)),
          st.calls ++ samples.map (fun s => (s, s.groupType))⟩, .ok ()) := by
  intro samples
  induction samples with
  | nil =>
    intro st _
    simp [helperRun, dedupAppend]
  | cons s rest ih =>
    intro st hsave
    simp only [helperRun]
    rw [hsave s (by simp)]
    rw [ih _ (fun x hx => hsave x (by simp [hx]))]
    simp only [List.map_cons, dedupAppend]
    congr 1
    simp [List.append_assoc]

/-- Claim C9, orchestrator pass-through: with no override, every sample is
persisted exactly once, in arrival order, under its own pre-existing tag;
the run succeeds and the finalize hook receives exactly the distinct set
of tags that received at least one sample. -/
theorem exportDatasetHelper_passthrough {A E : Type}
    (save : Sample A → Option GroupType → Except E Unit)
    (samples : List (Sample A))
    (hsave : ∀ s ∈ samples, save s s.groupType = .ok ()) :
    (exportDatasetHelper none save true samples).result = .ok () ∧
    (exportDatasetHelper none save true samples).state.calls =
      samples.map (fun s => (s, s.groupType)) ∧
    ∃ gs, (exportDatasetHelper none save true samples).finalizeArg = some gs ∧
      gs.Nodup ∧
      ∀ g, g ∈ gs ↔ g ∈ samples.map (fun s => s.groupType) := by
  rw [exportDatasetHelper_eq_ok none save true samples _
    (helperRun_passthrough save samples ⟨[], [], []⟩ hsave)]
  constructor
  · rfl
  constructor
  · simp
  refine ⟨dedupAppend [] (samples.map (fun s => s.groupType)), ?_, ?_, ?_⟩
  · simp
  · exact nodup_dedupAppend _ [] List.nodup_nil
  · intro g
    rw [mem_dedupAppend]
    simp

/-- Runs driven by a counts-ignoring override chooser (the shape
`exportCocoDataset` builds from a caller's `customDispatchGroup`):
every sample is dispatched to the override's choice, and the per-class
counts table is updated along the way. -/
theorem helperRun_override_chooser {A E : Type} (o : Sample A → GroupType)
    (save : Sample A → Option GroupType → Except E Unit) :
    ∀ (samples : List (Sample A)) (st : HelperState A),
      (∀ s ∈ samples, save s (some (o s)) = .ok ()) →
      helperRun (some (fun s _ => o s)) save samples st =
        (⟨samples.foldl (fun r s => setCounts r s.categoryName
            (((lookupCounts r s.categoryName).getD ⟨0, 0, 0⟩).inc (o s)))
            st.ratios,
          dedupAppend st.groups (samples.map (fun s => some (o s))),
          st.calls ++ samples.map (fun s => (s, some (o s)))⟩, .ok ()) := by
  intro samples
  induction samples with
  | nil =>
    intro st _
    simp [helperRun, dedupAppend]
  | cons s rest ih =>
    intro st hsave
    simp only [helperRun]
    rw [hsave s (by simp)]
    rw [ih _ (fun x hx => hsave x (by simp [hx]))]
    simp only [List.map_cons, List.foldl_cons, dedupAppend]
    congr 1
    simp [List.append_assoc]

/-- Looking up one class after overwriting another leaves it unchanged;
looking up the written class yields the written value. -/
theorem lookupCounts_setCounts :
    ∀ (r : List (String × Counts)) (c c' : String) (v : Counts),
      lookupCounts (setCounts r c v) c' =
        if c = c' then some v else lookupCounts r c' := by
  intro r
  induction r with
  | nil =>
    intro c c' v
    simp [setCounts, lookupCounts]
  | cons kv rest ih =>
    intro c c' v
    obtain ⟨k, w⟩ := kv
    by_cases hk : k = c
    · subst hk
      rw [setCounts, if_pos rfl]
      by_cases hc : k = c'
      · subst hc
        simp [lookupCounts]
      · simp [lookupCounts, hc]
    · rw [setCounts, if_neg hk]
      by_cases hc : k = c'
      · subst hc
        have : ¬ c = k := fun h => hk h.symm
        simp [lookupCounts, this]
      · simp [lookupCounts, hc, ih]

/-- The per-class view of the counts table built by an override run:
each class's entry is the tally of the override's choices over that
class's samples, starting from that class's previous entry. -/
theorem lookupCounts_foldl {A : Type} (o : Sample A → GroupType) :
    ∀ (samples : List (Sample A)) (r : List (String × Counts)) (c : String),
      lookupCounts (samples.foldl (fun r s => setCounts r s.categoryName
          (((lookupCounts r s.categoryName).getD ⟨0, 0, 0⟩).inc (o s))) r) c =
        (samples.filter (fun s => decide (s.categoryName = c))).foldl
          (fun oc s => some ((oc.getD ⟨0, 0, 0⟩).inc (o s)))
          (lookupCounts r c) := by
  intro samples
  induction samples with
  | nil => intro r c; rfl
  | cons s rest ih =>
    intro r c
    simp only [List.foldl_cons, List.filter_cons]
    by_cases hc : s.categoryName = c
    · rw [if_pos (by simpa using hc)]
      rw [ih]
      rw [lookupCounts_setCounts, if_pos hc, hc, List.foldl_cons]
    · rw [if_neg (by simpa using hc)]
      rw [ih]
      rw [lookupCounts_setCounts, if_neg hc]

/-- Claim C7 as amended: when a caller override is present the orchestrator
follows the override's decision for every sample, but the per-class
counts bookkeeping still runs: every class that occurs is initialised and
incremented with the override's chosen splits (classes that never occur
stay absent). -/
theorem exportDatasetHelper_override {A E : Type} (o : Sample A → GroupType)
    (save : Sample A → Option GroupType → Except E Unit)
    (hasFinalize : Bool) (samples : List (Sample A))
    (hsave : ∀ s ∈ samples, save s (some (o s)) = .ok ()) :
    (exportDatasetHelper (some (fun s _ => o s)) save hasFinalize
      samples).result = .ok () ∧
    (exportDatasetHelper (some (fun s _ => o s)) save hasFinalize
      samples).state.calls = samples.map (fun s => (s, some (o s))) ∧
    ∀ c, lookupCounts (exportDatasetHelper (some (fun s _ => o s)) save
        hasFinalize samples).state.ratios c =
      (samples.filter (fun s => decide (s.categoryName = c))).foldl
        (fun oc s => some ((oc.getD ⟨0, 0, 0⟩).inc (o s))) none := by
  rw [exportDatasetHelper_eq_ok (some (fun s _ => o s)) save hasFinalize samples _
    (helperRun_override_chooser o save samples ⟨[], [], []⟩ hsave)]
  constructor
  · rfl
  constructor
  · simp
  intro c
  exact lookupCounts_foldl o samples [] c

/-- Counterexample to claim C7 as stated: the claim that an override skips the
per-class bookkeeping is false: a one-sample run with a constant override
initialises the class entry and increments the chosen split. -/
theorem exportDatasetHelper_override_writes_counts :
    (exportDatasetHelper (A := Unit) (E := Unit)
        (some (fun _ _ => GroupType.train)) (fun _ _ => .ok ()) true
        [⟨1, "a.png", "cat", some .train, ()⟩]).state.ratios =
      [("cat", ⟨1, 0, 0⟩)] ∧
    (exportDatasetHelper (A := Unit) (E := Unit)
        (some (fun _ _ => GroupType.train)) (fun _ _ => .ok ()) true
        [⟨1, "a.png", "cat", some .train, ()⟩]).state.ratios ≠ [] := by
  constructor
  · rfl
  · decide

/-- Claim C10: a sample whose group tag is the empty string is accepted in
pass-through mode: the empty tag is handed to `saveSample` as the chosen
group, appears in the list passed to `createDirsAndMetadata`, and nothing
rejects it. -/
theorem exportDatasetHelper_empty_tag :
    exportDatasetHelper (A := Unit) (E := Unit) none (fun _ _ => .ok ()) true
        [⟨1, "a.png", "cat", some .train, ()⟩, ⟨2, "b.png", "dog", none, ()⟩] =
      ⟨⟨[], [some .train, none],
        [(⟨1, "a.png", "cat", some .train, ()⟩, some .train),
         (⟨2, "b.png", "dog", none, ()⟩, none)]⟩,
        some [some .train, none], .ok ()⟩ := by
  rfl

/-! ### Concrete witnesses -/

/-- Witness for the steady-state rule at counts `(1,1,1)` and target
`{train:7, test:2, val:1}`. -/
theorem dispatchGroup_minimizes_sq_error_witness :
    ∃ b, dispatchGroup ⟨1, 1, 1⟩ ⟨7, 2, 1⟩ = .ok b ∧
      b ∈ activeGroups ⟨7, 2, 1⟩ ∧
      (∀ g ∈ activeGroups ⟨7, 2, 1⟩,
        steadyError ⟨1, 1, 1⟩ ⟨7, 2, 1⟩ b ≤ steadyError ⟨1, 1, 1⟩ ⟨7, 2, 1⟩ g) ∧
      (∀ g ∈ activeGroups ⟨7, 2, 1⟩,
        steadyError ⟨1, 1, 1⟩ ⟨7, 2, 1⟩ g = steadyError ⟨1, 1, 1⟩ ⟨7, 2, 1⟩ b →
        (activeGroups ⟨7, 2, 1⟩).indexOf b ≤ (activeGroups ⟨7, 2, 1⟩).indexOf g) :=
  dispatchGroup_minimizes_sq_error ⟨1, 1, 1⟩ ⟨7, 2, 1⟩ (by decide) (by decide)

/-- Witness for the cold-start rule at target `{train:7, test:2, val:1}`. -/
theorem dispatchGroup_cold_start_witness :
    (∀ (current : Counts) (g : GroupType),
      (activeGroups ⟨7, 2, 1⟩).find? (fun h => decide (current.get h = 0)) = some g →
      dispatchGroup current ⟨7, 2, 1⟩ = .ok g) ∧
    genDispatchGroupSequence ⟨7, 2, 1⟩ (activeGroups ⟨7, 2, 1⟩).length =
      .ok (activeGroups ⟨7, 2, 1⟩) :=
  dispatchGroup_cold_start ⟨7, 2, 1⟩ (by decide)

/-- Witness for two-way degeneration at target `{train:3, test:1, val:0}`
and counts `(5,7,9)`. -/
theorem dispatchGroup_never_val_witness :
    dispatchGroup ⟨5, 7, 9⟩ ⟨3, 1, 0⟩ ≠ .ok GroupType.val :=
  dispatchGroup_never_val ⟨3, 1, 0⟩ rfl (by decide) (by decide) ⟨5, 7, 9⟩

/-- Witness for the generator refinement at target `{train:7, test:2,
val:1}` and five pulls. -/
theorem genDispatchGroupSequence_refines_witness :
    ∃ l, genDispatchGroupSequence ⟨7, 2, 1⟩ 5 = .ok l ∧ l.length = 5 ∧
      (driveDispatcher ⟨7, 2, 1⟩ 5 (⟨0, 0, 0⟩, [])).map Prod.snd = .ok l :=
  genDispatchGroupSequence_refines ⟨7, 2, 1⟩ 5 (by decide)

/-- Witness for fatal propagation: the sink rejects the second of three
samples and the run stops there without finalizing. -/
theorem exportDatasetHelper_fatal_witness :
    exportDatasetHelper (A := Unit) (E := String) none
        (fun s _ => if s.imageId = 2 then .error "boom" else .ok ()) true
        [⟨1, "a.png", "c1", some .train, ()⟩, ⟨2, "b.png", "c2", some .val, ()⟩,
          ⟨3, "c.png", "c3", some .test, ()⟩] =
      ⟨(helperRun (A := Unit) (E := String) none
          (fun s _ => if s.imageId = 2 then .error "boom" else .ok ())
          ([⟨1, "a.png", "c1", some .train, ()⟩, ⟨2, "b.png", "c2", some .val, ()⟩,
            ⟨3, "c.png", "c3", some .test, ()⟩].take 2) ⟨[], [], []⟩).1,
        none, .error "boom"⟩ :=
  exportDatasetHelper_fatal none
    (fun s _ => if s.imageId = 2 then .error "boom" else .ok ()) true
    [⟨1, "a.png", "c1", some .train, ()⟩, ⟨2, "b.png", "c2", some .val, ()⟩,
      ⟨3, "c.png", "c3", some .test, ()⟩] 1 "boom" (by decide) (by decide)

/-- Witness for pass-through orchestration on three pre-tagged samples. -/
theorem exportDatasetHelper_passthrough_witness :
    (exportDatasetHelper (A := Unit) (E := Unit) none (fun _ _ => .ok ()) true
        [⟨1, "a.png", "cat", some .train, ()⟩, ⟨2, "b.png", "dog", some .val, ()⟩,
          ⟨3, "c.png", "emu", some .test, ()⟩]).result = .ok () ∧
    (exportDatasetHelper (A := Unit) (E := Unit) none (fun _ _ => .ok ()) true
        [⟨1, "a.png", "cat", some .train, ()⟩, ⟨2, "b.png", "dog", some .val, ()⟩,
          ⟨3, "c.png", "emu", some .test, ()⟩]).state.calls =
      [⟨1, "a.png", "cat", some .train, ()⟩, ⟨2, "b.png", "dog", some .val, ()⟩,
        ⟨3, "c.png", "emu", some .test, ()⟩].map (fun s => (s, s.groupType)) ∧
    ∃ gs, (exportDatasetHelper (A := Unit) (E := Unit) none (fun _ _ => .ok ()) true
        [⟨1, "a.png", "cat", some .train, ()⟩, ⟨2, "b.png", "dog", some .val, ()⟩,
          ⟨3, "c.png", "emu", some .test, ()⟩]).finalizeArg = some gs ∧
      gs.Nodup ∧
      ∀ g, g ∈ gs ↔ g ∈ [⟨1, "a.png", "cat", some .train, ()⟩,
        ⟨2, "b.png", "dog", some .val, ()⟩,
        ⟨3, "c.png", "emu", some .test, ()⟩].map
          (fun s : Sample Unit => s.groupType) :=
  exportDatasetHelper_passthrough (fun _ _ => .ok ())
    [⟨1, "a.png", "cat", some .train, ()⟩, ⟨2, "b.png", "dog", some .val, ()⟩,
      ⟨3, "c.png", "emu", some .test, ()⟩] (by decide)

/-- Witness for the amended override claim: two same-class samples
dispatched by a constant override chooser. -/
theorem exportDatasetHelper_override_witness :
    (exportDatasetHelper (A := Unit) (E := Unit)
        (some (fun s _ => (fun _ : Sample Unit => GroupType.test) s))
        (fun _ _ => .ok ()) true
        [⟨1, "a.png", "cat", some .train, ()⟩,
          ⟨2, "b.png", "cat", some .val, ()⟩]).result = .ok () ∧
    (exportDatasetHelper (A := Unit) (E := Unit)
        (some (fun s _ => (fun _ : Sample Unit => GroupType.test) s))
        (fun _ _ => .ok ()) true
        [⟨1, "a.png", "cat", some .train, ()⟩,
          ⟨2, "b.png", "cat", some .val, ()⟩]).state.calls =
      [⟨1, "a.png", "cat", some .train, ()⟩,
        ⟨2, "b.png", "cat", some .val, ()⟩].map
          (fun s => (s, some ((fun _ : Sample Unit => GroupType.test) s))) ∧
    ∀ c, lookupCounts (exportDatasetHelper (A := Unit) (E := Unit)
        (some (fun s _ => (fun _ : Sample Unit => GroupType.test) s))
        (fun _ _ => .ok ()) true
        [⟨1, "a.png", "cat", some .train, ()⟩,
          ⟨2, "b.png", "cat", some .val, ()⟩]).state.ratios c =
      ([⟨1, "a.png", "cat", some .train, ()⟩,
        ⟨2, "b.png", "cat", some .val, ()⟩].filter
          (fun s : Sample Unit => decide (s.categoryName = c))).foldl
        (fun oc s => some ((oc.getD ⟨0, 0, 0⟩).inc
          ((fun _ : Sample Unit => GroupType.test) s))) none :=
  exportDatasetHelper_override (fun _ : Sample Unit => GroupType.test)
    (fun _ _ => .ok ()) true
    [⟨1, "a.png", "cat", some .train, ()⟩, ⟨2, "b.png", "cat", some .val, ()⟩]
    (by decide)

/-! ### Concrete convergence run (kernel-evaluated in segments) -/

set_option maxRecDepth 100000 in
/-- Segment 0 of the concrete 10,000-pull run (pulls 0–250). -/
theorem runCountsN_seg_0 :
    runCountsN ⟨7, 2, 1⟩ 250 ⟨0, 0, 0⟩ = .ok ⟨175, 50, 25⟩ := by
  decide

set_option maxRecDepth 100000 in
/-- Segment 1 of the concrete 10,000-pull run (pulls 250–500). -/
theorem runCountsN_seg_1 :
    runCountsN ⟨7, 2, 1⟩ 250 ⟨175, 50, 25⟩ = .ok ⟨350, 100, 50⟩ := by
  decide

set_option maxRecDepth 100000 in
/-- Segment 2 of the concrete 10,000-pull run (pulls 500–750). -/
theorem runCountsN_seg_2 :
    runCountsN ⟨7, 2, 1⟩ 250 ⟨350, 100, 50⟩ = .ok ⟨525, 150, 75⟩ := by
  decide

set_option maxRecDepth 100000 in
/-- Segment 3 of the concrete 10,000-pull run (pulls 750–1000). -/
theorem runCountsN_seg_3 :
    runCountsN ⟨7, 2, 1⟩ 250 ⟨525, 150, 75⟩ = .ok ⟨700, 200, 100⟩ := by
  decide

set_option maxRecDepth 100000 in
/-- Segment 4 of the concrete 10,000-pull run (pulls 1000–1250). -/
theorem runCountsN_seg_4 :
    runCountsN ⟨7, 2, 1⟩ 250 ⟨700, 200, 100⟩ = .ok ⟨875, 250, 125⟩ := by
  decide

set_option maxRecDepth 100000 in
/-- Segment 5 of the concrete 10,000-pull run (pulls 1250–1500). -/
theorem runCountsN_seg_5 :
    runCountsN ⟨7, 2, 1⟩ 250 ⟨875, 250, 125⟩ = .ok ⟨1050, 300, 150⟩ := by
  decide

set_option maxRecDepth 100000 in
/-- Segment 6 of the concrete 10,000-pull run (pulls 1500–1750). -/
theorem runCountsN_seg_6 :
    runCountsN ⟨7, 2, 1⟩ 250 ⟨1050, 300, 150⟩ = .ok ⟨1225, 350, 175⟩ := by
  decide

set_option maxRecDepth 100000 in
/-- Segment 7 of the concrete 10,000-pull run (pulls 1750–2000). -/
theorem runCountsN_seg_7 :
    runCountsN ⟨7, 2, 1⟩ 250 ⟨1225, 350, 175⟩ = .ok ⟨1400, 400, 200⟩ := by
  decide

set_option maxRecDepth 100000 in
/-- Segment 8 of the concrete 10,000-pull run (pulls 2000–2250). -/
theorem runCountsN_seg_8 :
    runCountsN ⟨7, 2, 1⟩ 250 ⟨1400, 400, 200⟩ = .ok ⟨1575, 450, 225⟩ := by
  decide

set_option maxRecDepth 100000 in
/-- Segment 9 of the concrete 10,000-pull run (pulls 2250–2500). -/
theorem runCountsN_seg_9 :
    runCountsN ⟨7, 2, 1⟩ 250 ⟨1575, 450, 225⟩ = .ok ⟨1750, 500, 250⟩ := by
  decide

set_option maxRecDepth 100000 in
/-- Segment 10 of the concrete 10,000-pull run (pulls 2500–2750). -/
theorem runCountsN_seg_10 :
    runCountsN ⟨7, 2, 1⟩ 250 ⟨1750, 500, 250⟩ = .ok ⟨1925, 550, 275⟩ := by
  decide

set_option maxRecDepth 100000 in
/-- Segment 11 of the concrete 10,000-pull run (pulls 2750–3000). -/
theorem runCountsN_seg_11 :
    runCountsN ⟨7, 2, 1⟩ 250 ⟨1925, 550, 275⟩ = .ok ⟨2100, 600, 300⟩ := by
  decide

set_option maxRecDepth 100000 in
/-- Segment 12 of the concrete 10,000-pull run (pulls 3000–3250). -/
theorem runCountsN_seg_12 :
    runCountsN ⟨7, 2, 1⟩ 250 ⟨2100, 600, 300⟩ = .ok ⟨2275, 650, 325⟩ := by
  decide

set_option maxRecDepth 100000 in
/-- Segment 13 of the concrete 10,000-pull run (pulls 3250–3500). -/
theorem runCountsN_seg_13 :
    runCountsN ⟨7, 2, 1⟩ 250 ⟨2275, 650, 325⟩ = .ok ⟨2450, 700, 350⟩ := by
  decide

set_option maxRecDepth 100000 in
/-- Segment 14 of the concrete 10,000-pull run (pulls 3500–3750). -/
theorem runCountsN_seg_14 :
    runCountsN ⟨7, 2, 1⟩ 250 ⟨2450, 700, 350⟩ = .ok ⟨2625, 750, 375⟩ := by
  decide

set_option maxRecDepth 100000 in
/-- Segment 15 of the concrete 10,000-pull run (pulls 3750–4000). -/
theorem runCountsN_seg_15 :
    runCountsN ⟨7, 2, 1⟩ 250 ⟨2625, 750, 375⟩ = .ok ⟨2800, 800, 400⟩ := by
  decide

set_option maxRecDepth 100000 in
/-- Segment 16 of the concrete 10,000-pull run (pulls 4000–4250). -/
theorem runCountsN_seg_16 :
    runCountsN ⟨7, 2, 1⟩ 250 ⟨2800, 800, 400⟩ = .ok ⟨2975, 850, 425⟩ := by
  decide

set_option maxRecDepth 100000 in
/-- Segment 17 of the concrete 10,000-pull run (pulls 4250–4500). -/
theorem runCountsN_seg_17 :
    runCountsN ⟨7, 2, 1⟩ 250 ⟨2975, 850, 425⟩ = .ok ⟨3150, 900, 450⟩ := by
  decide

set_option maxRecDepth 100000 in
/-- Segment 18 of the concrete 10,000-pull run (pulls 4500–4750). -/
theorem runCountsN_seg_18 :
    runCountsN ⟨7, 2, 1⟩ 250 ⟨3150, 900, 450⟩ = .ok ⟨3325, 950, 475⟩ := by
  decide

set_option maxRecDepth 100000 in
/-- Segment 19 of the concrete 10,000-pull run (pulls 4750–5000). -/
theorem runCountsN_seg_19 :
    runCountsN ⟨7, 2, 1⟩ 250 ⟨3325, 950, 475⟩ = .ok ⟨3500, 1000, 500⟩ := by
  decide

set_option maxRecDepth 100000 in
/-- Segment 20 of the concrete 10,000-pull run (pulls 5000–5250). -/
theorem runCountsN_seg_20 :
    runCountsN ⟨7, 2, 1⟩ 250 ⟨3500, 1000, 500⟩ = .ok ⟨3675, 1050, 525⟩ := by
  decide

set_option maxRecDepth 100000 in
/-- Segment 21 of the concrete 10,000-pull run (pulls 5250–5500). -/
theorem runCountsN_seg_21 :
    runCountsN ⟨7, 2, 1⟩ 250 ⟨3675, 1050, 525⟩ = .ok ⟨3850, 1100, 550⟩ := by
  decide

set_option maxRecDepth 100000 in
/-- Segment 22 of the concrete 10,000-pull run (pulls 5500–5750). -/
theorem runCountsN_seg_22 :
    runCountsN ⟨7, 2, 1⟩ 250 ⟨3850, 1100, 550⟩ = .ok ⟨4025, 1150, 575⟩ := by
  decide

set_option maxRecDepth 100000 in
/-- Segment 23 of the concrete 10,000-pull run (pulls 5750–6000). -/
theorem runCountsN_seg_23 :
    runCountsN ⟨7, 2, 1⟩ 250 ⟨4025, 1150, 575⟩ = .ok ⟨4200, 1200, 600⟩ := by
  decide

set_option maxRecDepth 100000 in
/-- Segment 24 of the concrete 10,000-pull run (pulls 6000–6250). -/
theorem runCountsN_seg_24 :
    runCountsN ⟨7, 2, 1⟩ 250 ⟨4200, 1200, 600⟩ = .ok ⟨4375, 1250, 625⟩ := by
  decide

set_option maxRecDepth 100000 in
/-- Segment 25 of the concrete 10,000-pull run (pulls 6250–6500). -/
theorem runCountsN_seg_25 :
    runCountsN ⟨7, 2, 1⟩ 250 ⟨4375, 1250, 625⟩ = .ok ⟨4550, 1300, 650⟩ := by
  decide

set_option maxRecDepth 100000 in
/-- Segment 26 of the concrete 10,000-pull run (pulls 6500–6750). -/
theorem runCountsN_seg_26 :
    runCountsN ⟨7, 2, 1⟩ 250 ⟨4550, 1300, 650⟩ = .ok ⟨4725, 1350, 675⟩ := by
  decide

set_option maxRecDepth 100000 in
/-- Segment 27 of the concrete 10,000-pull run (pulls 6750–7000). -/
theorem runCountsN_seg_27 :
    runCountsN ⟨7, 2, 1⟩ 250 ⟨4725, 1350, 675⟩ = .ok ⟨4900, 1400, 700⟩ := by
  decide

set_option maxRecDepth 100000 in
/-- Segment 28 of the concrete 10,000-pull run (pulls 7000–7250). -/
theorem runCountsN_seg_28 :
    runCountsN ⟨7, 2, 1⟩ 250 ⟨4900, 1400, 700⟩ = .ok ⟨5075, 1450, 725⟩ := by
  decide

set_option maxRecDepth 100000 in
/-- Segment 29 of the concrete 10,000-pull run (pulls 7250–7500). -/
theorem runCountsN_seg_29 :
    runCountsN ⟨7, 2, 1⟩ 250 ⟨5075, 1450, 725⟩ = .ok ⟨5250, 1500, 750⟩ := by
  decide

set_option maxRecDepth 100000 in
/-- Segment 30 of the concrete 10,000-pull run (pulls 7500–7750). -/
theorem runCountsN_seg_30 :
    runCountsN ⟨7, 2, 1⟩ 250 ⟨5250, 1500, 750⟩ = .ok ⟨5425, 1550, 775⟩ := by
  decide

set_option maxRecDepth 100000 in
/-- Segment 31 of the concrete 10,000-pull run (pulls 7750–8000). -/
theorem runCountsN_seg_31 :
    runCountsN ⟨7, 2, 1⟩ 250 ⟨5425, 1550, 775⟩ = .ok ⟨5600, 1600, 800⟩ := by
  decide

set_option maxRecDepth 100000 in
/-- Segment 32 of the concrete 10,000-pull run (pulls 8000–8250). -/
theorem runCountsN_seg_32 :
    runCountsN ⟨7, 2, 1⟩ 250 ⟨5600, 1600, 800⟩ = .ok ⟨5775, 1650, 825⟩ := by
  decide

set_option maxRecDepth 100000 in
/-- Segment 33 of the concrete 10,000-pull run (pulls 8250–8500). -/
theorem runCountsN_seg_33 :
    runCountsN ⟨7, 2, 1⟩ 250 ⟨5775, 1650, 825⟩ = .ok ⟨5950, 1700, 850⟩ := by
  decide

set_option maxRecDepth 100000 in
/-- Segment 34 of the concrete 10,000-pull run (pulls 8500–8750). -/
theorem runCountsN_seg_34 :
    runCountsN ⟨7, 2, 1⟩ 250 ⟨5950, 1700, 850⟩ = .ok ⟨6125, 1750, 875⟩ := by
  decide

set_option maxRecDepth 100000 in
/-- Segment 35 of the concrete 10,000-pull run (pulls 8750–9000). -/
theorem runCountsN_seg_35 :
    runCountsN ⟨7, 2, 1⟩ 250 ⟨6125, 1750, 875⟩ = .ok ⟨6300, 1800, 900⟩ := by
  decide

set_option maxRecDepth 100000 in
/-- Segment 36 of the concrete 10,000-pull run (pulls 9000–9250). -/
theorem runCountsN_seg_36 :
    runCountsN ⟨7, 2, 1⟩ 250 ⟨6300, 1800, 900⟩ = .ok ⟨6475, 1850, 925⟩ := by
  decide

set_option maxRecDepth 100000 in
/-- Segment 37 of the concrete 10,000-pull run (pulls 9250–9500). -/
theorem runCountsN_seg_37 :
    runCountsN ⟨7, 2, 1⟩ 250 ⟨6475, 1850, 925⟩ = .ok ⟨6650, 1900, 950⟩ := by
  decide

set_option maxRecDepth 100000 in
/-- Segment 38 of the concrete 10,000-pull run (pulls 9500–9750). -/
theorem runCountsN_seg_38 :
    runCountsN ⟨7, 2, 1⟩ 250 ⟨6650, 1900, 950⟩ = .ok ⟨6825, 1950, 975⟩ := by
  decide

set_option maxRecDepth 100000 in
/-- Segment 39 of the concrete 10,000-pull run (pulls 9750–10000). -/
theorem runCountsN_seg_39 :
    runCountsN ⟨7, 2, 1⟩ 250 ⟨6825, 1950, 975⟩ = .ok ⟨7000, 2000, 1000⟩ := by
  decide

/-- Concrete 10,000-pull counter run for target `{train:7, test:2, val:1}`,
combined from the 250-step segments. -/
theorem runCountsN_10000 :
    runCountsN ⟨7, 2, 1⟩ 10000 ⟨0, 0, 0⟩ = .ok ⟨7000, 2000, 1000⟩ := by
  refine runCountsN_chain _ 10000 250 9750 _ _ _ (by norm_num) runCountsN_seg_0 ?_
  refine runCountsN_chain _ 9750 250 9500 _ _ _ (by norm_num) runCountsN_seg_1 ?_
  refine runCountsN_chain _ 9500 250 9250 _ _ _ (by norm_num) runCountsN_seg_2 ?_
  refine runCountsN_chain _ 9250 250 9000 _ _ _ (by norm_num) runCountsN_seg_3 ?_
  refine runCountsN_chain _ 9000 250 8750 _ _ _ (by norm_num) runCountsN_seg_4 ?_
  refine runCountsN_chain _ 8750 250 8500 _ _ _ (by norm_num) runCountsN_seg_5 ?_
  refine runCountsN_chain _ 8500 250 8250 _ _ _ (by norm_num) runCountsN_seg_6 ?_
  refine runCountsN_chain _ 8250 250 8000 _ _ _ (by norm_num) runCountsN_seg_7 ?_
  refine runCountsN_chain _ 8000 250 7750 _ _ _ (by norm_num) runCountsN_seg_8 ?_
  refine runCountsN_chain _ 7750 250 7500 _ _ _ (by norm_num) runCountsN_seg_9 ?_
  refine runCountsN_chain _ 7500 250 7250 _ _ _ (by norm_num) runCountsN_seg_10 ?_
  refine runCountsN_chain _ 7250 250 7000 _ _ _ (by norm_num) runCountsN_seg_11 ?_
  refine runCountsN_chain _ 7000 250 6750 _ _ _ (by norm_num) runCountsN_seg_12 ?_
  refine runCountsN_chain _ 6750 250 6500 _ _ _ (by norm_num) runCountsN_seg_13 ?_
  refine runCountsN_chain _ 6500 250 6250 _ _ _ (by norm_num) runCountsN_seg_14 ?_
  refine runCountsN_chain _ 6250 250 6000 _ _ _ (by norm_num) runCountsN_seg_15 ?_
  refine runCountsN_chain _ 6000 250 5750 _ _ _ (by norm_num) runCountsN_seg_16 ?_
  refine runCountsN_chain _ 5750 250 5500 _ _ _ (by norm_num) runCountsN_seg_17 ?_
  refine runCountsN_chain _ 5500 250 5250 _ _ _ (by norm_num) runCountsN_seg_18 ?_
  refine runCountsN_chain _ 5250 250 5000 _ _ _ (by norm_num) runCountsN_seg_19 ?_
  refine runCountsN_chain _ 5000 250 4750 _ _ _ (by norm_num) runCountsN_seg_20 ?_
  refine runCountsN_chain _ 4750 250 4500 _ _ _ (by norm_num) runCountsN_seg_21 ?_
  refine runCountsN_chain _ 4500 250 4250 _ _ _ (by norm_num) runCountsN_seg_22 ?_
  refine runCountsN_chain _ 4250 250 4000 _ _ _ (by norm_num) runCountsN_seg_23 ?_
  refine runCountsN_chain _ 4000 250 3750 _ _ _ (by norm_num) runCountsN_seg_24 ?_
  refine runCountsN_chain _ 3750 250 3500 _ _ _ (by norm_num) runCountsN_seg_25 ?_
  refine runCountsN_chain _ 3500 250 3250 _ _ _ (by norm_num) runCountsN_seg_26 ?_
  refine runCountsN_chain _ 3250 250 3000 _ _ _ (by norm_num) runCountsN_seg_27 ?_
  refine runCountsN_chain _ 3000 250 2750 _ _ _ (by norm_num) runCountsN_seg_28 ?_
  refine runCountsN_chain _ 2750 250 2500 _ _ _ (by norm_num) runCountsN_seg_29 ?_
  refine runCountsN_chain _ 2500 250 2250 _ _ _ (by norm_num) runCountsN_seg_30 ?_
  refine runCountsN_chain _ 2250 250 2000 _ _ _ (by norm_num) runCountsN_seg_31 ?_
  refine runCountsN_chain _ 2000 250 1750 _ _ _ (by norm_num) runCountsN_seg_32 ?_
  refine runCountsN_chain _ 1750 250 1500 _ _ _ (by norm_num) runCountsN_seg_33 ?_
  refine runCountsN_chain _ 1500 250 1250 _ _ _ (by norm_num) runCountsN_seg_34 ?_
  refine runCountsN_chain _ 1250 250 1000 _ _ _ (by norm_num) runCountsN_seg_35 ?_
  refine runCountsN_chain _ 1000 250 750 _ _ _ (by norm_num) runCountsN_seg_36 ?_
  refine runCountsN_chain _ 750 250 500 _ _ _ (by norm_num) runCountsN_seg_37 ?_
  refine runCountsN_chain _ 500 250 250 _ _ _ (by norm_num) runCountsN_seg_38 ?_
  exact runCountsN_seg_39

/-- Claim C3, convergence at ratio `{train:7, test:2, val:1}`: 10,000 pulls
of the sequence generator produce final proportions within `±0.01` of the
target proportions (they land exactly on them). -/
theorem genDispatchGroupSequence_converges :
    ∃ l, genDispatchGroupSequence ⟨7, 2, 1⟩ 10000 = .ok l ∧
      l.length = 10000 ∧
      |(l.count GroupType.train : ℚ) / 10000 - 7 / 10| ≤ 1 / 100 ∧
      |(l.count GroupType.test : ℚ) / 10000 - 2 / 10| ≤ 1 / 100 ∧
      |(l.count GroupType.val : ℚ) / 10000 - 1 / 10| ≤ 1 / 100 := by
  have ht : (⟨7, 2, 1⟩ : Ratio) = RatioN.toRatio ⟨7, 2, 1⟩ := by
    norm_num [RatioN.toRatio]
  have hrun := runCountsN_10000
  rw [runCountsN_eq_tally] at hrun
  cases hg : genSeqAuxN ⟨7, 2, 1⟩ 10000 ⟨0, 0, 0⟩ with
  | error e => rw [hg] at hrun; simp [Except.map] at hrun
  | ok l =>
    rw [hg] at hrun
    simp only [Except.map, Except.ok.injEq] at hrun
    have hct : l.count GroupType.train = 7000 := by
      have := tally_get GroupType.train l ⟨0, 0, 0⟩
      rw [hrun] at this
      simpa [Counts.get] using this.symm
    have hcs : l.count GroupType.test = 2000 := by
      have := tally_get GroupType.test l ⟨0, 0, 0⟩
      rw [hrun] at this
      simpa [Counts.get] using this.symm
    have hcv : l.count GroupType.val = 1000 := by
      have := tally_get GroupType.val l ⟨0, 0, 0⟩
      rw [hrun] at this
      simpa [Counts.get] using this.symm
    have hseq : genDispatchGroupSequence ⟨7, 2, 1⟩ 10000 = .ok l := by
      unfold genDispatchGroupSequence
      rw [ht, genSeqAux_eq_intN]
      exact hg
    refine ⟨l, hseq, ?_, ?_, ?_, ?_⟩
    · apply genSeqAux_length (⟨7, 2, 1⟩ : Ratio) 10000 ⟨0, 0, 0⟩
      rw [ht, genSeqAux_eq_intN]
      exact hg
    · rw [hct]
      have hz : ((7000 : ℕ) : ℚ) / 10000 - 7 / 10 = 0 := by norm_num
      rw [hz, abs_zero]
      norm_num
    · rw [hcs]
      have hz : ((2000 : ℕ) : ℚ) / 10000 - 2 / 10 = 0 := by norm_num
      rw [hz, abs_zero]
      norm_num
    · rw [hcv]
      have hz : ((1000 : ℕ) : ℚ) / 10000 - 1 / 10 = 0 := by norm_num
      rw [hz, abs_zero]
      norm_num

end DatasetHelpers
